import Mathlib

/-!
# Discovery-then-list walk of `main.go`

A shallow embedding of `src/main.go` (package `main`): the program discovers the
server's preferred resources, and for every resource that supports the verb
`list` it prints a `Processing` line, issues one list request through the
dynamic client and prints the namespace and name of every returned object.

The external collaborators (client construction, the discovery call, the list
call) are inputs of the model, collected in `Env`.  The process state is the
sequence of writes to standard output, the sequence of writes to the error
stream and the sequence of list requests issued so far (`World`).  `os.Exit`
is modelled by the `exited` outcome, which stops every enclosing loop.
Errors are represented by the text their `Error()` method returns.

Modelling choices:
* what `flag.Parse()` does with the command line is an input (`CommandLine`):
  it returns with the flag values, or it prints the usage and exits; when it
  returns both flag pointers are non-nil, so the tests `kubeconfig != nil` and
  `labelSelector != nil` hold;
* the server's answer to a list request is a function of the request;
* `restConfig.QPS` and `restConfig.Burst` only tune client-side rate limiting
  and are not observable here;
* `schema.ParseGroupVersion`, `GroupVersionResource.String` and
  `sets.String.Has` belong to the imported Kubernetes libraries; they are
  transcribed from those libraries.
-/

namespace KubeDiscovery

/-! ## Data model -/

/-- The `schema.GroupVersion` struct of k8s.io/apimachinery. -/
structure GroupVersion where
  Group : String
  Version : String
  deriving DecidableEq, Repr

/-- The `schema.GroupVersionResource` struct of k8s.io/apimachinery. -/
structure GroupVersionResource where
  Group : String
  Version : String
  Resource : String
  deriving DecidableEq, Repr

/-- The fields of `metav1.APIResource` that `main` reads. -/
structure APIResource where
  Name : String
  Verbs : List String
  deriving DecidableEq, Repr

/-- The fields of `metav1.APIResourceList` that `main` reads. -/
structure APIResourceList where
  GroupVersion : String
  APIResources : List APIResource
  deriving DecidableEq, Repr

/-- The query fields of `metav1.ListOptions`; `main` starts from the zero value
(`metav1.ListOptions{}`, line 66). -/
structure ListOptions where
  LabelSelector : String := ""
  FieldSelector : String := ""
  Watch : Bool := false
  AllowWatchBookmarks : Bool := false
  ResourceVersion : String := ""
  ResourceVersionMatch : String := ""
  TimeoutSeconds : Option Int := none
  Limit : Int := 0
  Continue : String := ""
  deriving DecidableEq, Repr

/-- One element of `list.Items`: what `GetNamespace()` and `GetName()` return. -/
structure Item where
  GetNamespace : String
  GetName : String
  deriving DecidableEq, Repr

/-- One call `dynamicClient.Resource(gvr).List(ctx, opts)`.  `Resource(gvr)`
yields a client whose namespace is the empty string (`metav1.NamespaceAll`);
only a call of `.Namespace(ns)` would change it. -/
structure ListRequest where
  resource : GroupVersionResource
  Namespace : String
  opts : ListOptions
  deriving DecidableEq, Repr

/-- The values of the two flags defined at lines 37-38, once `flag.Parse()` has returned. -/
structure Flags where
  kubeconfig : String := ""
  selector : String := ""
  deriving DecidableEq, Repr

/-- What `flag.Parse()` (line 40) does with the command line.  The default flag set handles
errors with `flag.ExitOnError`: when the arguments are accepted the call returns and the flags
hold their values; for `-h` or `-help` it prints the usage to the error stream and calls
`os.Exit(0)`; for any other parse error (an undefined flag, a bad value) it prints the error
and the usage to the error stream and calls `os.Exit(2)`.  `prog` is `os.Args[0]` and
`defaults` are the writes of `flag.PrintDefaults()`. -/
inductive CommandLine where
  | parsed (flags : Flags)
  | help (prog : String) (defaults : List String)
  | rejected (problem : String) (prog : String) (defaults : List String)
  deriving DecidableEq, Repr

/-- What each external call of `main` returns.  An `Option String` is the
returned `error` (`none` is `nil`).  `ServerPreferredResources` returns both a
slice and an error, so both are kept. -/
structure Env where
  GetStartingConfig : String → Option String
  ClientConfig : Option String
  NewDiscoveryClientForConfig : Option String
  ServerPreferredResources : List APIResourceList × Option String
  NewForConfig : Option String
  list : ListRequest → Except String (List Item)

/-- Observable state of the process: the writes made to standard output and to
the error stream (one entry per `Printf`/`Fprintf` call) and the list requests
issued to the server, each in order. -/
structure World where
  stdout : List String := []
  stderr : List String := []
  requests : List ListRequest := []
  deriving DecidableEq, Repr

/-- Either the program is still running in state `w`, or `os.Exit(code)` has
been called in state `w`. -/
inductive Outcome where
  | running (w : World)
  | exited (code : Nat) (w : World)
  deriving DecidableEq, Repr

/-- Final state of an outcome. -/
def Outcome.world : Outcome → World
  | .running w => w
  | .exited _ w => w

/-- Process exit code: returning from `main` gives 0, `os.Exit(c)` gives `c`. -/
def Outcome.exitCode : Outcome → Nat
  | .running _ => 0
  | .exited c _ => c

/-- Sequencing: the continuation runs only if the process has not exited. -/
def Outcome.andThen (o : Outcome) (k : World → Outcome) : Outcome :=
  match o with
  | .running w => k w
  | .exited c w => .exited c w

/-- A `fmt.Printf` whose formatted text is `s`. -/
def World.printf (w : World) (s : String) : World :=
  { w with stdout := w.stdout ++ [s] }

/-- A `fmt.Fprintf(os.Stderr, ...)` whose formatted text is `s`. -/
def World.eprintf (w : World) (s : String) : World :=
  { w with stderr := w.stderr ++ [s] }

/-- Several writes to the error stream, in order. -/
def World.eprintAll (w : World) (ss : List String) : World :=
  { w with stderr := w.stderr ++ ss }

/-- Record that a list request was sent. -/
def World.send (w : World) (q : ListRequest) : World :=
  { w with requests := w.requests ++ [q] }

/-- The text of standard output: the writes concatenated. -/
def World.stdoutText (w : World) : String :=
  String.join w.stdout

/-! ## Upstream library functions called by `main` -/

/-- Upstream `schema.ParseGroupVersion` (k8s.io/apimachinery, called at
`main.go:72`): the empty string and `"/"` give the zero value; a string with no
`'/'` is a version of the core group; with one `'/'` it is split there; with
more the error `unexpected GroupVersion string: <gv>` is returned. -/
def ParseGroupVersion (gv : String) : Except String GroupVersion :=
  if gv.data = [] ∨ gv = "/" then
    .ok ⟨"", ""⟩
  else
    match gv.data.count '/' with
    | 0 => .ok ⟨"", gv⟩
    | 1 =>
      .ok ⟨String.mk (gv.data.takeWhile (· ≠ '/')),
           String.mk ((gv.data.dropWhile (· ≠ '/')).drop 1)⟩
    | _ => .error ("unexpected GroupVersion string: " ++ gv)

/-- Upstream `GroupVersionResource.String()`, used by the `%s` verb:
`strings.Join([]string{Group, "/", Version, ", Resource=", Resource}, "")`. -/
def GroupVersionResource.String (gvr : GroupVersionResource) : String :=
  String.join [gvr.Group, "/", gvr.Version, ", Resource=", gvr.Resource]

/-- The writes of the default `flag.Usage`: the line `Usage of <prog>:` and then the flag
defaults. -/
def usageWrites (prog : String) (defaults : List String) : List String :=
  ("Usage of " ++ prog ++ ":\n") :: defaults

/-- Upstream `sets.NewString(items...).Has(item)`: membership by string equality. -/
def Has (items : List String) (item : String) : Bool :=
  items.contains item

/-! ## The program -/

/-- The function `checkError` (lines 99-104). -/
def checkError (err : Option String) (msg : String) (w : World) : Outcome :=
  match err with
  | some e => .exited 1 (w.eprintf (msg ++ ": " ++ e ++ "\n"))
  | none => .running w

/-- The loop `for _, item := range list.Items` (lines 89-94). -/
def itemsLoop : List Item → World → World
  | [], w => w
  | item :: rest, w =>
    let w1 := if item.GetNamespace ≠ "" then
        w.printf ("Namespace: " ++ item.GetNamespace ++ "\n")
      else w
    itemsLoop rest (w1.printf ("Name: " ++ item.GetName ++ "\n\n"))

/-- The loop `for _, resource := range resourceList.APIResources` (lines 74-95). -/
def resourcesLoop (env : Env) (listOptions : ListOptions) (gv : GroupVersion) :
    List APIResource → World → Outcome
  | [], w => .running w
  | resource :: rest, w =>
    if !Has resource.Verbs "list" then
      resourcesLoop env listOptions gv rest w
    else
      let gvr : GroupVersionResource := ⟨gv.Group, gv.Version, resource.Name⟩
      let w1 := w.printf ("Processing " ++ gvr.String ++ "\n")
      let q : ListRequest := ⟨gvr, "", listOptions⟩
      let w2 := w1.send q
      match env.list q with
      | .error e => checkError (some e) ("error listing " ++ gvr.String) w2
      | .ok items =>
        (checkError none ("error listing " ++ gvr.String) w2).andThen fun w3 =>
          resourcesLoop env listOptions gv rest (itemsLoop items w3)

/-- The loop `for _, resourceList := range resourceLists` (lines 71-96). -/
def blocksLoop (env : Env) (listOptions : ListOptions) :
    List APIResourceList → World → Outcome
  | [], w => .running w
  | resourceList :: rest, w =>
    match ParseGroupVersion resourceList.GroupVersion with
    | .error e =>
      checkError (some e) ("error parsing GroupVersion " ++ resourceList.GroupVersion) w
    | .ok gv =>
      (checkError none ("error parsing GroupVersion " ++ resourceList.GroupVersion) w).andThen
        fun w1 =>
          (resourcesLoop env listOptions gv resourceList.APIResources w1).andThen
            (blocksLoop env listOptions rest)

/-- The options built at lines 66-69: the zero value with the selector flag copied in. -/
def mkListOptions (flags : Flags) : ListOptions :=
  { ({} : ListOptions) with LabelSelector := flags.selector }

/-- The function `main` (lines 34-97).  `flag.Parse()` (line 40) either returns, or exits
with code 0 after the usage (help), or exits with code 2 after the error and the usage. -/
def main (env : Env) (cmd : CommandLine) : Outcome :=
  match cmd with
  | .help prog defaults =>
    .exited 0 (World.eprintAll {} (usageWrites prog defaults))
  | .rejected problem prog defaults =>
    .exited 2 (World.eprintAll {} ((problem ++ "\n") :: usageWrites prog defaults))
  | .parsed flags =>
    (checkError (env.GetStartingConfig flags.kubeconfig) "error getting starting config"
      {}).andThen fun w =>
    (checkError env.ClientConfig "error getting REST config" w).andThen fun w =>
    (checkError env.NewDiscoveryClientForConfig "error creating discovery client" w).andThen
    fun w =>
    (checkError env.ServerPreferredResources.2 "error getting server preferred resources"
      w).andThen fun w =>
    (checkError env.NewForConfig "error creating dynamic client" w).andThen fun w =>
    blocksLoop env (mkListOptions flags) env.ServerPreferredResources.1 w

/-! ## Reference description of a run

The definitions below follow the specification's wording (resolved coordinates,
rendered records); the theorems compare them with the program above. -/

/-- The list request `main` builds for a coordinate: all namespaces, the given options. -/
def requestFor (listOptions : ListOptions) (c : GroupVersionResource) : ListRequest :=
  { resource := c, Namespace := "", opts := listOptions }

/-- Coordinates of one block: the entries whose verbs contain `"list"`, in entry order. -/
def coordinatesOf (gv : GroupVersion) (rs : List APIResource) : List GroupVersionResource :=
  (rs.filter fun r => decide ("list" ∈ r.Verbs)).map
    fun r => { Group := gv.Group, Version := gv.Version, Resource := r.Name }

/-- Coordinates of a discovery result, in block order and then entry order; a
block whose group-version string does not parse contributes none. -/
def listableCoordinates (lists : List APIResourceList) : List GroupVersionResource :=
  lists.flatMap fun b =>
    match ParseGroupVersion b.GroupVersion with
    | .ok gv => coordinatesOf gv b.APIResources
    | .error _ => []

/-- The informational line of a coordinate. -/
def processingLine (c : GroupVersionResource) : String :=
  "Processing " ++ c.Group ++ "/" ++ c.Version ++ ", Resource=" ++ c.Resource ++ "\n"

/-- The writes for one object: the namespace line only when the namespace is not empty. -/
def renderItem (item : Item) : List String :=
  if item.GetNamespace = "" then
    ["Name: " ++ item.GetName ++ "\n\n"]
  else
    ["Namespace: " ++ item.GetNamespace ++ "\n", "Name: " ++ item.GetName ++ "\n\n"]

/-- The objects of a list response; none when the request failed. -/
def responseItems (r : Except String (List Item)) : List Item :=
  match r with
  | .ok items => items
  | .error _ => []

/-- The writes belonging to one list request: its `Processing` line, then its records. -/
def segment (env : Env) (q : ListRequest) : List String :=
  processingLine q.resource :: (responseItems (env.list q)).flatMap renderItem

/-- State after processing the coordinates `cs` from state `w`. -/
def World.extend (w : World) (env : Env) (listOptions : ListOptions)
    (cs : List GroupVersionResource) : World :=
  { w with
    stdout := w.stdout ++ (cs.map (requestFor listOptions)).flatMap (segment env)
    requests := w.requests ++ cs.map (requestFor listOptions) }

/-- Every list-supporting entry of `rs` can be listed under group-version `gv`. -/
def ResourcesOk (env : Env) (listOptions : ListOptions) (gv : GroupVersion)
    (rs : List APIResource) : Prop :=
  ∀ r ∈ rs, "list" ∈ r.Verbs →
    ∃ items, env.list (requestFor listOptions ⟨gv.Group, gv.Version, r.Name⟩) = .ok items

/-- The block parses and every list-supporting entry of it can be listed. -/
def BlockOk (env : Env) (listOptions : ListOptions) (b : APIResourceList) : Prop :=
  ∃ gv, ParseGroupVersion b.GroupVersion = .ok gv ∧ ResourcesOk env listOptions gv b.APIResources

/-- All four client-construction steps of `main` succeed. -/
def SetupOk (env : Env) (flags : Flags) : Prop :=
  env.GetStartingConfig flags.kubeconfig = none ∧ env.ClientConfig = none ∧
    env.NewDiscoveryClientForConfig = none ∧ env.NewForConfig = none

/-- A write that starts with `Processing `. -/
def isProcessingLine (s : String) : Bool :=
  "Processing ".data.isPrefixOf s.data

/-- A write that starts with `Name: `. -/
def isNameLine (s : String) : Bool :=
  "Name: ".data.isPrefixOf s.data

/-! ## Example environments -/

/-- An environment whose client construction and discovery succeed. -/
def envOf (lists : List APIResourceList) (list : ListRequest → Except String (List Item)) : Env :=
  { GetStartingConfig := fun _ => none
    ClientConfig := none
    NewDiscoveryClientForConfig := none
    ServerPreferredResources := (lists, none)
    NewForConfig := none
    list := list }

/-- A discovery result with a core block and a named-group block; two entries lack `"list"`. -/
def sampleLists : List APIResourceList :=
  [⟨"v1", [⟨"pods", ["list", "get"]⟩, ⟨"nodes", ["get"]⟩, ⟨"events", ["List"]⟩]⟩,
   ⟨"apps/v1", [⟨"deployments", ["get", "list"]⟩]⟩]

/-- A server on which every list request succeeds. -/
def sampleEnv : Env :=
  envOf sampleLists fun q =>
    if q.resource.Resource = "pods" then .ok [⟨"default", "a"⟩]
    else .ok [⟨"", "b"⟩, ⟨"default", "a"⟩]

/-- The server of scenario A: the core block `v1` advertises `pods` with `list` and `get`,
and listing returns the pod `default/a`. -/
def coreEnv : Env :=
  envOf [⟨"v1", [⟨"pods", ["list", "get"]⟩]⟩] fun _ => .ok [⟨"default", "a"⟩]

/-- A server whose second block has a group-version string with two separators. -/
def malformedSecondEnv : Env :=
  envOf [⟨"v1", [⟨"pods", ["list", "get"]⟩]⟩, ⟨"a/b/c", [⟨"things", ["list"]⟩]⟩,
      ⟨"apps/v1", [⟨"deployments", ["list"]⟩]⟩]
    fun _ => .ok [⟨"default", "a"⟩]

/-- Discovery succeeds with an empty result, but the dynamic client cannot be created. -/
def noDynamicClientEnv : Env :=
  { GetStartingConfig := fun _ => none
    ClientConfig := none
    NewDiscoveryClientForConfig := none
    ServerPreferredResources := ([], none)
    NewForConfig := some "boom"
    list := fun _ => .ok [] }

/-- A server with one cluster-scoped kind: `nodes`, holding the node `n1`. -/
def clusterScopedEnv : Env :=
  envOf [⟨"v1", [⟨"nodes", ["list"]⟩]⟩] fun _ => .ok [⟨"", "n1"⟩]

/-- A server on which listing `pods` works and listing `secrets` is refused. -/
def forbiddenSecretsEnv : Env :=
  envOf [⟨"v1", [⟨"pods", ["list"]⟩, ⟨"nodes", ["get"]⟩, ⟨"secrets", ["list"]⟩,
      ⟨"services", ["list"]⟩]⟩, ⟨"apps/v1", [⟨"deployments", ["list"]⟩]⟩]
    fun q => if q.resource.Resource = "secrets" then .error "forbidden" else .ok [⟨"default", "a"⟩]

/-- A server whose discovery call returns a partial result together with an error. -/
def partialDiscoveryEnv : Env :=
  { GetStartingConfig := fun _ => none
    ClientConfig := none
    NewDiscoveryClientForConfig := none
    ServerPreferredResources := (sampleLists, some "unable to retrieve the complete list")
    NewForConfig := none
    list := fun _ => .ok [⟨"default", "a"⟩] }

/-- A server that advertises an entry with an empty name in a block with an empty
group-version string. -/
def emptyNamesEnv : Env :=
  envOf [⟨"", [⟨"", ["list"]⟩]⟩] fun _ => .ok []

/-! ## Basic lemmas -/

theorem has_list_iff (vs : List String) : Has vs "list" = true ↔ "list" ∈ vs := by
  simp [Has]

theorem string_join_append (xs ys : List String) :
    String.join (xs ++ ys) = String.join xs ++ String.join ys := by
  apply String.ext
  simp [String.data_append]

theorem gvr_string_eq (c : GroupVersionResource) :
    c.String = c.Group ++ "/" ++ c.Version ++ ", Resource=" ++ c.Resource := by
  apply String.ext
  simp [GroupVersionResource.String, String.data_append]

theorem processing_write_eq (c : GroupVersionResource) :
    "Processing " ++ c.String ++ "\n" = processingLine c := by
  apply String.ext
  simp [gvr_string_eq, processingLine, String.data_append]

theorem extend_nil (w : World) (env : Env) (o : ListOptions) : w.extend env o [] = w := by
  simp [World.extend]

theorem extend_append (w : World) (env : Env) (o : ListOptions)
    (cs ds : List GroupVersionResource) :
    w.extend env o (cs ++ ds) = (w.extend env o cs).extend env o ds := by
  simp [World.extend, List.flatMap_append]

theorem itemsLoop_eq (items : List Item) (w : World) :
    itemsLoop items w = { w with stdout := w.stdout ++ items.flatMap renderItem } := by
  induction items generalizing w with
  | nil => simp [itemsLoop]
  | cons item rest ih =>
    rw [itemsLoop, ih]
    by_cases h : item.GetNamespace = "" <;> simp [h, renderItem, World.printf]

/-! ## The entry loop -/

theorem coordinatesOf_append (gv : GroupVersion) (a b : List APIResource) :
    coordinatesOf gv (a ++ b) = coordinatesOf gv a ++ coordinatesOf gv b := by
  simp [coordinatesOf]

theorem coordinatesOf_cons_skip (gv : GroupVersion) (r : APIResource) (rest : List APIResource)
    (h : "list" ∉ r.Verbs) : coordinatesOf gv (r :: rest) = coordinatesOf gv rest := by
  simp [coordinatesOf, h]

theorem coordinatesOf_cons_keep (gv : GroupVersion) (r : APIResource) (rest : List APIResource)
    (h : "list" ∈ r.Verbs) :
    coordinatesOf gv (r :: rest) = ⟨gv.Group, gv.Version, r.Name⟩ :: coordinatesOf gv rest := by
  simp [coordinatesOf, h]

theorem resourcesLoop_skip (env : Env) (o : ListOptions) (gv : GroupVersion) (r : APIResource)
    (rest : List APIResource) (w : World) (h : "list" ∉ r.Verbs) :
    resourcesLoop env o gv (r :: rest) w = resourcesLoop env o gv rest w := by
  have h1 : Has r.Verbs "list" = false := by
    rw [Bool.eq_false_iff]
    intro hc
    exact h ((has_list_iff _).1 hc)
  simp [resourcesLoop, h1]

theorem resourcesLoop_listed (env : Env) (o : ListOptions) (gv : GroupVersion) (r : APIResource)
    (rest : List APIResource) (w : World) (items : List Item) (h : "list" ∈ r.Verbs)
    (hl : env.list (requestFor o ⟨gv.Group, gv.Version, r.Name⟩) = .ok items) :
    resourcesLoop env o gv (r :: rest) w =
      resourcesLoop env o gv rest (w.extend env o [⟨gv.Group, gv.Version, r.Name⟩]) := by
  have h1 : Has r.Verbs "list" = true := (has_list_iff _).2 h
  have hl2 : env.list ⟨⟨gv.Group, gv.Version, r.Name⟩, "", o⟩ = .ok items := hl
  simp only [resourcesLoop, h1, hl2]
  simp [checkError, Outcome.andThen, itemsLoop_eq, World.extend, segment, hl2, responseItems,
    World.printf, World.send, processing_write_eq, requestFor]

theorem resourcesLoop_failed (env : Env) (o : ListOptions) (gv : GroupVersion) (r : APIResource)
    (rest : List APIResource) (w : World) (cause : String) (h : "list" ∈ r.Verbs)
    (hl : env.list (requestFor o ⟨gv.Group, gv.Version, r.Name⟩) = .error cause) :
    resourcesLoop env o gv (r :: rest) w =
      .exited 1 ((w.extend env o [⟨gv.Group, gv.Version, r.Name⟩]).eprintf
        ("error listing " ++ gv.Group ++ "/" ++ gv.Version ++ ", Resource=" ++ r.Name ++ ": "
          ++ cause ++ "\n")) := by
  have h1 : Has r.Verbs "list" = true := (has_list_iff _).2 h
  have hl2 : env.list ⟨⟨gv.Group, gv.Version, r.Name⟩, "", o⟩ = .error cause := hl
  simp only [resourcesLoop, h1, hl2]
  have hmsg : "error listing " ++ GroupVersionResource.String ⟨gv.Group, gv.Version, r.Name⟩
      ++ ": " ++ cause ++ "\n" = "error listing " ++ gv.Group ++ "/" ++ gv.Version
      ++ ", Resource=" ++ r.Name ++ ": " ++ cause ++ "\n" := by
    apply String.ext
    simp [gvr_string_eq, String.data_append]
  simp [checkError, World.extend, segment, hl2, responseItems,
    World.printf, World.send, processing_write_eq, requestFor, World.eprintf, hmsg]

theorem resourcesLoop_append (env : Env) (o : ListOptions) (gv : GroupVersion)
    (a b : List APIResource) (w : World) :
    resourcesLoop env o gv (a ++ b) w =
      (resourcesLoop env o gv a w).andThen (resourcesLoop env o gv b) := by
  induction a generalizing w with
  | nil => simp [resourcesLoop, Outcome.andThen]
  | cons r rest ih =>
    by_cases h : "list" ∈ r.Verbs
    · cases hl : env.list (requestFor o ⟨gv.Group, gv.Version, r.Name⟩) with
      | error cause =>
        rw [List.cons_append, resourcesLoop_failed env o gv r _ w cause h hl,
          resourcesLoop_failed env o gv r _ w cause h hl]
        rfl
      | ok items =>
        rw [List.cons_append, resourcesLoop_listed env o gv r _ w items h hl,
          resourcesLoop_listed env o gv r _ w items h hl, ih]
    · rw [List.cons_append, resourcesLoop_skip env o gv r _ w h,
        resourcesLoop_skip env o gv r _ w h, ih]

theorem resourcesLoop_ok (env : Env) (o : ListOptions) (gv : GroupVersion)
    (rs : List APIResource) (w : World) (hok : ResourcesOk env o gv rs) :
    resourcesLoop env o gv rs w = .running (w.extend env o (coordinatesOf gv rs)) := by
  induction rs generalizing w with
  | nil => simp [resourcesLoop, coordinatesOf, extend_nil]
  | cons r rest ih =>
    have hrest : ResourcesOk env o gv rest := fun x hx => hok x (List.mem_cons_of_mem _ hx)
    by_cases h : "list" ∈ r.Verbs
    · obtain ⟨items, hl⟩ := hok r (List.mem_cons_self _ _) h
      rw [resourcesLoop_listed env o gv r _ w items h hl, ih _ hrest,
        coordinatesOf_cons_keep gv r rest h, ← extend_append]
      rfl
    · rw [resourcesLoop_skip env o gv r _ w h, ih _ hrest, coordinatesOf_cons_skip gv r rest h]

theorem resourcesLoop_fail_at (env : Env) (o : ListOptions) (gv : GroupVersion)
    (rpre rpost : List APIResource) (r : APIResource) (w : World) (cause : String)
    (hpre : ResourcesOk env o gv rpre) (h : "list" ∈ r.Verbs)
    (hl : env.list (requestFor o ⟨gv.Group, gv.Version, r.Name⟩) = .error cause) :
    resourcesLoop env o gv (rpre ++ r :: rpost) w =
      .exited 1 ((w.extend env o (coordinatesOf gv rpre ++ [⟨gv.Group, gv.Version, r.Name⟩])).eprintf
        ("error listing " ++ gv.Group ++ "/" ++ gv.Version ++ ", Resource=" ++ r.Name ++ ": "
          ++ cause ++ "\n")) := by
  rw [resourcesLoop_append, resourcesLoop_ok env o gv rpre w hpre]
  simp only [Outcome.andThen]
  rw [resourcesLoop_failed env o gv r rpost _ cause h hl, extend_append]

/-- In a list, either every element satisfies `P` or there is a first one that does not. -/
theorem all_or_first_not {α : Type} (P : α → Prop) (l : List α) :
    (∀ x ∈ l, P x) ∨ ∃ pre x post, l = pre ++ x :: post ∧ (∀ y ∈ pre, P y) ∧ ¬ P x := by
  induction l with
  | nil => left; simp
  | cons a rest ih =>
    by_cases ha : P a
    · rcases ih with hall | ⟨pre, x, post, hl, hpre, hx⟩
      · left
        intro y hy
        rcases List.mem_cons.1 hy with rfl | hy
        · exact ha
        · exact hall y hy
      · right
        refine ⟨a :: pre, x, post, by simp [hl], ?_, hx⟩
        intro y hy
        rcases List.mem_cons.1 hy with rfl | hy
        · exact ha
        · exact hpre y hy
    · right
      exact ⟨[], a, rest, rfl, by simp, ha⟩

/-! ## The block loop -/

theorem listableCoordinates_append (a b : List APIResourceList) :
    listableCoordinates (a ++ b) = listableCoordinates a ++ listableCoordinates b := by
  simp [listableCoordinates, List.flatMap_append]

theorem listableCoordinates_cons_ok (b : APIResourceList) (rest : List APIResourceList)
    (gv : GroupVersion) (h : ParseGroupVersion b.GroupVersion = .ok gv) :
    listableCoordinates (b :: rest) = coordinatesOf gv b.APIResources ++ listableCoordinates rest := by
  simp [listableCoordinates, h]

theorem blocksLoop_parsed (env : Env) (o : ListOptions) (b : APIResourceList)
    (rest : List APIResourceList) (w : World) (gv : GroupVersion)
    (h : ParseGroupVersion b.GroupVersion = .ok gv) :
    blocksLoop env o (b :: rest) w =
      (resourcesLoop env o gv b.APIResources w).andThen (blocksLoop env o rest) := by
  simp only [blocksLoop, h]
  simp [checkError, Outcome.andThen]

theorem blocksLoop_unparsed (env : Env) (o : ListOptions) (b : APIResourceList)
    (rest : List APIResourceList) (w : World) (e : String)
    (h : ParseGroupVersion b.GroupVersion = .error e) :
    blocksLoop env o (b :: rest) w =
      .exited 1 (w.eprintf ("error parsing GroupVersion " ++ b.GroupVersion ++ ": " ++ e ++ "\n")) := by
  simp only [blocksLoop, h]
  simp [checkError]

theorem andThen_assoc (x : Outcome) (f g : World → Outcome) :
    (x.andThen f).andThen g = x.andThen fun w => (f w).andThen g := by
  cases x <;> simp [Outcome.andThen]

theorem blocksLoop_append (env : Env) (o : ListOptions) (a b : List APIResourceList) (w : World) :
    blocksLoop env o (a ++ b) w = (blocksLoop env o a w).andThen (blocksLoop env o b) := by
  induction a generalizing w with
  | nil => simp [blocksLoop, Outcome.andThen]
  | cons x rest ih =>
    cases hp : ParseGroupVersion x.GroupVersion with
    | error e =>
      rw [List.cons_append, blocksLoop_unparsed env o x _ w e hp,
        blocksLoop_unparsed env o x _ w e hp]
      rfl
    | ok gv =>
      rw [List.cons_append, blocksLoop_parsed env o x _ w gv hp,
        blocksLoop_parsed env o x _ w gv hp, andThen_assoc]
      congr 1
      funext w1
      exact ih w1

theorem blocksLoop_ok (env : Env) (o : ListOptions) (lists : List APIResourceList) (w : World)
    (hok : ∀ b ∈ lists, BlockOk env o b) :
    blocksLoop env o lists w = .running (w.extend env o (listableCoordinates lists)) := by
  induction lists generalizing w with
  | nil => simp [blocksLoop, listableCoordinates, extend_nil]
  | cons b rest ih =>
    obtain ⟨gv, hp, hr⟩ := hok b (List.mem_cons_self _ _)
    have hrest : ∀ x ∈ rest, BlockOk env o x := fun x hx => hok x (List.mem_cons_of_mem _ hx)
    rw [blocksLoop_parsed env o b rest w gv hp, resourcesLoop_ok env o gv _ w hr]
    simp only [Outcome.andThen]
    rw [ih _ hrest, listableCoordinates_cons_ok b rest gv hp, extend_append]

theorem blocksLoop_parse_fail_at (env : Env) (o : ListOptions) (pre post : List APIResourceList)
    (b : APIResourceList) (w : World) (e : String) (hpre : ∀ x ∈ pre, BlockOk env o x)
    (hp : ParseGroupVersion b.GroupVersion = .error e) :
    blocksLoop env o (pre ++ b :: post) w =
      .exited 1 ((w.extend env o (listableCoordinates pre)).eprintf
        ("error parsing GroupVersion " ++ b.GroupVersion ++ ": " ++ e ++ "\n")) := by
  rw [blocksLoop_append, blocksLoop_ok env o pre w hpre]
  simp only [Outcome.andThen]
  rw [blocksLoop_unparsed env o b post _ e hp]

theorem blocksLoop_list_fail_at (env : Env) (o : ListOptions) (pre post : List APIResourceList)
    (b : APIResourceList) (gv : GroupVersion) (rpre rpost : List APIResource) (r : APIResource)
    (w : World) (cause : String) (hpre : ∀ x ∈ pre, BlockOk env o x)
    (hp : ParseGroupVersion b.GroupVersion = .ok gv) (hb : b.APIResources = rpre ++ r :: rpost)
    (hrpre : ResourcesOk env o gv rpre) (h : "list" ∈ r.Verbs)
    (hl : env.list (requestFor o ⟨gv.Group, gv.Version, r.Name⟩) = .error cause) :
    blocksLoop env o (pre ++ b :: post) w =
      .exited 1 ((w.extend env o
          (listableCoordinates pre ++ (coordinatesOf gv rpre ++ [⟨gv.Group, gv.Version, r.Name⟩]))).eprintf
        ("error listing " ++ gv.Group ++ "/" ++ gv.Version ++ ", Resource=" ++ r.Name ++ ": "
          ++ cause ++ "\n")) := by
  rw [blocksLoop_append, blocksLoop_ok env o pre w hpre]
  simp only [Outcome.andThen]
  rw [blocksLoop_parsed env o b post _ gv hp, hb,
    resourcesLoop_fail_at env o gv rpre rpost r _ cause hrpre h hl]
  simp only [Outcome.andThen, extend_append]

/-- A block that is not `BlockOk` either fails to parse or has a first entry whose listing fails. -/
theorem not_blockOk_cases (env : Env) (o : ListOptions) (b : APIResourceList)
    (h : ¬ BlockOk env o b) :
    (∃ e, ParseGroupVersion b.GroupVersion = .error e) ∨
    ∃ gv rpre r rpost cause, ParseGroupVersion b.GroupVersion = .ok gv ∧
      b.APIResources = rpre ++ r :: rpost ∧ ResourcesOk env o gv rpre ∧ "list" ∈ r.Verbs ∧
      env.list (requestFor o ⟨gv.Group, gv.Version, r.Name⟩) = .error cause := by
  cases hp : ParseGroupVersion b.GroupVersion with
  | error e => exact Or.inl ⟨e, rfl⟩
  | ok gv =>
    right
    rcases all_or_first_not
      (fun r : APIResource => "list" ∈ r.Verbs →
        ∃ items, env.list (requestFor o ⟨gv.Group, gv.Version, r.Name⟩) = .ok items)
      b.APIResources with hall | ⟨rpre, r, rpost, hb, hrpre, hr⟩
    · exact absurd ⟨gv, hp, hall⟩ h
    · have hmem : "list" ∈ r.Verbs := by
        by_contra hc
        exact hr (fun h1 => absurd h1 hc)
      cases hl : env.list (requestFor o ⟨gv.Group, gv.Version, r.Name⟩) with
      | ok items => exact absurd (fun _ => ⟨items, hl⟩) hr
      | error cause => exact ⟨gv, rpre, r, rpost, cause, rfl, hb, hrpre, hmem, hl⟩

/-- Classification of every run of the block loop. -/
theorem blocksLoop_cases (env : Env) (o : ListOptions) (lists : List APIResourceList) (w : World) :
    ((∀ b ∈ lists, BlockOk env o b) ∧
      blocksLoop env o lists w = .running (w.extend env o (listableCoordinates lists))) ∨
    (∃ pre b post e, lists = pre ++ b :: post ∧ (∀ x ∈ pre, BlockOk env o x) ∧
      ParseGroupVersion b.GroupVersion = .error e ∧
      blocksLoop env o lists w =
        .exited 1 ((w.extend env o (listableCoordinates pre)).eprintf
          ("error parsing GroupVersion " ++ b.GroupVersion ++ ": " ++ e ++ "\n"))) ∨
    (∃ pre b post gv rpre r rpost cause, lists = pre ++ b :: post ∧
      (∀ x ∈ pre, BlockOk env o x) ∧ ParseGroupVersion b.GroupVersion = .ok gv ∧
      b.APIResources = rpre ++ r :: rpost ∧ ResourcesOk env o gv rpre ∧ "list" ∈ r.Verbs ∧
      env.list (requestFor o ⟨gv.Group, gv.Version, r.Name⟩) = .error cause ∧
      blocksLoop env o lists w =
        .exited 1 ((w.extend env o
            (listableCoordinates pre ++ (coordinatesOf gv rpre ++ [⟨gv.Group, gv.Version, r.Name⟩]))).eprintf
          ("error listing " ++ gv.Group ++ "/" ++ gv.Version ++ ", Resource=" ++ r.Name ++ ": "
            ++ cause ++ "\n"))) := by
  rcases all_or_first_not (BlockOk env o) lists with hall | ⟨pre, b, post, hl, hpre, hb⟩
  · exact Or.inl ⟨hall, blocksLoop_ok env o lists w hall⟩
  · rcases not_blockOk_cases env o b hb with ⟨e, hp⟩ | ⟨gv, rpre, r, rpost, cause, hp, hbr, hrpre, hm, hc⟩
    · right; left
      refine ⟨pre, b, post, e, hl, hpre, hp, ?_⟩
      rw [hl]
      exact blocksLoop_parse_fail_at env o pre post b w e hpre hp
    · right; right
      refine ⟨pre, b, post, gv, rpre, r, rpost, cause, hl, hpre, hp, hbr, hrpre, hm, hc, ?_⟩
      rw [hl]
      exact blocksLoop_list_fail_at env o pre post b gv rpre rpost r w cause hpre hp hbr hrpre hm hc

/-! ## The whole program -/

theorem main_of_setup (env : Env) (flags : Flags) (hs : SetupOk env flags)
    (hd : env.ServerPreferredResources.2 = none) :
    main env (.parsed flags) = blocksLoop env (mkListOptions flags) env.ServerPreferredResources.1 {} := by
  obtain ⟨h1, h2, h3, h4⟩ := hs
  simp [main, h1, h2, h3, h4, hd, checkError, Outcome.andThen]

/-- When a client-construction step or the discovery call fails, the run exits with code 1
after one write to the error stream, and nothing else has happened. -/
theorem main_setup_failed (env : Env) (flags : Flags)
    (h : ¬ (SetupOk env flags ∧ env.ServerPreferredResources.2 = none)) :
    ∃ line, main env (.parsed flags) = .exited 1 { stdout := [], stderr := [line], requests := [] } := by
  cases h1 : env.GetStartingConfig flags.kubeconfig with
  | some e => exact ⟨"error getting starting config: " ++ e ++ "\n", by simp [main, h1, checkError, Outcome.andThen, World.eprintf]⟩
  | none =>
    cases h2 : env.ClientConfig with
    | some e => exact ⟨"error getting REST config: " ++ e ++ "\n", by simp [main, h1, h2, checkError, Outcome.andThen, World.eprintf]⟩
    | none =>
      cases h3 : env.NewDiscoveryClientForConfig with
      | some e => exact ⟨"error creating discovery client: " ++ e ++ "\n", by simp [main, h1, h2, h3, checkError, Outcome.andThen, World.eprintf]⟩
      | none =>
        cases h4 : env.ServerPreferredResources.2 with
        | some e =>
          exact ⟨"error getting server preferred resources: " ++ e ++ "\n", by simp [main, h1, h2, h3, h4, checkError, Outcome.andThen, World.eprintf]⟩
        | none =>
          cases h5 : env.NewForConfig with
          | some e =>
            exact ⟨"error creating dynamic client: " ++ e ++ "\n", by simp [main, h1, h2, h3, h4, h5, checkError, Outcome.andThen, World.eprintf]⟩
          | none => exact absurd ⟨⟨h1, h2, h3, h5⟩, h4⟩ h

/-- Every run has processed a prefix of the listable coordinates and nothing else:
its requests and its standard output are those of that prefix. -/
theorem main_trace (env : Env) (flags : Flags) :
    ∃ cs, cs <+: listableCoordinates env.ServerPreferredResources.1 ∧
      (main env (.parsed flags)).world.requests = cs.map (requestFor (mkListOptions flags)) ∧
      (main env (.parsed flags)).world.stdout =
        (cs.map (requestFor (mkListOptions flags))).flatMap (segment env) := by
  by_cases h : SetupOk env flags ∧ env.ServerPreferredResources.2 = none
  · rw [main_of_setup env flags h.1 h.2]
    rcases blocksLoop_cases env (mkListOptions flags) env.ServerPreferredResources.1 {} with
      ⟨_, hr⟩ | ⟨pre, b, post, e, hl, _, _, hr⟩ |
      ⟨pre, b, post, gv, rpre, r, rpost, cause, hl, _, hp, hb, _, hm, _, hr⟩
    · exact ⟨_, List.prefix_refl _, by simp [hr, Outcome.world, World.extend],
        by simp [hr, Outcome.world, World.extend]⟩
    · refine ⟨listableCoordinates pre, ?_, by simp [hr, Outcome.world, World.extend, World.eprintf],
        by simp [hr, Outcome.world, World.extend, World.eprintf]⟩
      rw [hl, listableCoordinates_append]
      exact List.prefix_append _ _
    · refine ⟨listableCoordinates pre ++ (coordinatesOf gv rpre ++ [⟨gv.Group, gv.Version, r.Name⟩]),
        ?_, by simp only [hr, Outcome.world, World.extend, World.eprintf, List.nil_append],
        by simp only [hr, Outcome.world, World.extend, World.eprintf, List.nil_append]⟩
      rw [hl, listableCoordinates_append, listableCoordinates_cons_ok b post gv hp, hb,
        coordinatesOf_append, coordinatesOf_cons_keep gv r rpost hm]
      simp only [List.append_assoc, List.singleton_append, List.cons_append]
      refine (List.prefix_append_right_inj _).2 ((List.prefix_append_right_inj _).2 ?_)
      exact (List.prefix_cons_inj _).2 (List.nil_prefix)
  · obtain ⟨line, hm⟩ := main_setup_failed env flags h
    exact ⟨[], List.nil_prefix, by simp [hm, Outcome.world], by simp [hm, Outcome.world]⟩

/-- The same for every command line: when `flag.Parse()` exits, nothing is requested or
printed. -/
theorem main_trace_any (env : Env) (cmd : CommandLine) :
    ∃ cs opts, cs <+: listableCoordinates env.ServerPreferredResources.1 ∧
      (main env cmd).world.requests = cs.map (requestFor opts) ∧
      (main env cmd).world.stdout = (cs.map (requestFor opts)).flatMap (segment env) := by
  cases cmd with
  | parsed flags =>
    obtain ⟨cs, h1, h2, h3⟩ := main_trace env flags
    exact ⟨cs, mkListOptions flags, h1, h2, h3⟩
  | help prog defaults => exact ⟨[], {}, List.nil_prefix, rfl, rfl⟩
  | rejected problem prog defaults => exact ⟨[], {}, List.nil_prefix, rfl, rfl⟩

/-- Where a listable coordinate comes from. -/
theorem mem_listableCoordinates (lists : List APIResourceList) (c : GroupVersionResource)
    (h : c ∈ listableCoordinates lists) :
    ∃ b ∈ lists, ∃ gv, ParseGroupVersion b.GroupVersion = .ok gv ∧
      ∃ r ∈ b.APIResources, "list" ∈ r.Verbs ∧ c = ⟨gv.Group, gv.Version, r.Name⟩ := by
  simp only [listableCoordinates, List.mem_flatMap] at h
  obtain ⟨b, hb, hc⟩ := h
  cases hp : ParseGroupVersion b.GroupVersion with
  | error e => simp [hp] at hc
  | ok gv =>
    simp only [hp, coordinatesOf, List.mem_map, List.mem_filter, decide_eq_true_eq] at hc
    obtain ⟨r, ⟨hr, hv⟩, rfl⟩ := hc
    exact ⟨b, hb, gv, hp, r, hr, hv, rfl⟩

/-- A list-supporting entry of a block that parses gives a listable coordinate. -/
theorem listableCoordinates_mem (lists : List APIResourceList) (b : APIResourceList)
    (gv : GroupVersion) (r : APIResource) (hb : b ∈ lists)
    (hp : ParseGroupVersion b.GroupVersion = .ok gv) (hr : r ∈ b.APIResources)
    (hv : "list" ∈ r.Verbs) :
    (⟨gv.Group, gv.Version, r.Name⟩ : GroupVersionResource) ∈ listableCoordinates lists := by
  simp only [listableCoordinates, List.mem_flatMap]
  refine ⟨b, hb, ?_⟩
  simp only [hp, coordinatesOf, List.mem_map, List.mem_filter, decide_eq_true_eq]
  exact ⟨r, ⟨hr, hv⟩, rfl⟩

/-! ## The upstream parser -/

theorem parse_error_iff (s : String) :
    (∃ e, ParseGroupVersion s = .error e) ↔ 2 ≤ s.data.count '/' := by
  unfold ParseGroupVersion
  by_cases h0 : s.data = [] ∨ s = "/"
  · rw [if_pos h0]
    constructor
    · rintro ⟨e, he⟩
      cases he
    · intro h
      rcases h0 with h0 | h0
      · rw [h0] at h
        simp at h
      · subst h0
        have h1 : List.count '/' "/".data = 1 := by decide
        omega
  · rw [if_neg h0]
    rcases hc : s.data.count '/' with _ | _ | n
    · simp
    · simp
    · simp

theorem parse_error_text (s e : String) (h : ParseGroupVersion s = .error e) :
    e = "unexpected GroupVersion string: " ++ s := by
  unfold ParseGroupVersion at h
  by_cases h0 : s.data = [] ∨ s = "/"
  · rw [if_pos h0] at h
    cases h
  · rw [if_neg h0] at h
    rcases hc : s.data.count '/' with _ | _ | n
    · rw [hc] at h
      cases h
    · rw [hc] at h
      cases h
    · rw [hc] at h
      simp only at h
      injection h with h
      exact h.symm

theorem dropWhile_not_slash (l : List Char) (hmem : '/' ∈ l) :
    ∃ rest, l.dropWhile (· ≠ '/') = '/' :: rest := by
  induction l with
  | nil => simp at hmem
  | cons a t ih =>
    by_cases ha : a = '/'
    · subst ha
      exact ⟨t, by simp [List.dropWhile]⟩
    · have ht : '/' ∈ t := by
        rcases List.mem_cons.1 hmem with h1 | h1
        · exact absurd h1.symm ha
        · exact h1
      obtain ⟨rest, hr⟩ := ih ht
      exact ⟨rest, by simpa [List.dropWhile, ha] using hr⟩

/-- A string that is not empty and does not end in `'/'` parses, if at all, to a non-empty
version. -/
theorem parse_version_ne_empty (s : String) (gv : GroupVersion)
    (hp : ParseGroupVersion s = .ok gv) (hne : s ≠ "") (hlast : s.data.getLast? ≠ some '/') :
    gv.Version ≠ "" := by
  unfold ParseGroupVersion at hp
  by_cases h0 : s.data = [] ∨ s = "/"
  · rcases h0 with h0 | h0
    · exact absurd (String.ext h0) hne
    · subst h0
      exact absurd rfl hlast
  · rw [if_neg h0] at hp
    rcases hc : s.data.count '/' with _ | _ | n
    · rw [hc] at hp
      simp only at hp
      injection hp with hp
      subst hp
      exact hne
    · rw [hc] at hp
      simp only at hp
      injection hp with hp
      subst hp
      intro hv
      have hv2 : (s.data.dropWhile (· ≠ '/')).drop 1 = [] := congrArg String.data hv
      have hmem : '/' ∈ s.data := List.count_pos_iff.1 (by omega)
      obtain ⟨rest, hr⟩ := dropWhile_not_slash s.data hmem
      rw [hr] at hv2
      simp only [List.drop_succ_cons, List.drop_zero] at hv2
      subst hv2
      have hsplit := List.takeWhile_append_dropWhile (· ≠ '/') s.data
      rw [hr] at hsplit
      apply hlast
      rw [← hsplit]
      exact List.getLast?_concat _
    · rw [hc] at hp
      cases hp

/-! ## Recognising the kinds of write -/

theorem isProcessingLine_processingLine (c : GroupVersionResource) :
    isProcessingLine (processingLine c) = true := by
  simp [isProcessingLine, processingLine, String.data_append, List.append_assoc]

theorem isProcessingLine_renderItem (item : Item) :
    (renderItem item).filter isProcessingLine = [] := by
  by_cases h : item.GetNamespace = "" <;>
    simp [renderItem, h, List.filter, isProcessingLine, String.data_append, List.isPrefixOf]

theorem filter_processing_segments (env : Env) (qs : List ListRequest) :
    (qs.flatMap (segment env)).filter isProcessingLine =
      qs.map fun q => processingLine q.resource := by
  induction qs with
  | nil => rfl
  | cons q rest ih =>
    have hitems : ∀ items : List Item,
        (items.flatMap renderItem).filter isProcessingLine = [] := by
      intro items
      induction items with
      | nil => rfl
      | cons i r ihr =>
        rw [List.flatMap_cons, List.filter_append, isProcessingLine_renderItem, ihr]
        rfl
    rw [List.flatMap_cons, List.filter_append, ih, segment, List.filter_cons,
      isProcessingLine_processingLine, hitems]
    simp

theorem isNameLine_renderItem (item : Item) :
    ((renderItem item).filter isNameLine).length = 1 := by
  by_cases h : item.GetNamespace = "" <;>
    simp [renderItem, h, List.filter, isNameLine, String.data_append, List.isPrefixOf]

theorem isNameLine_processingLine (c : GroupVersionResource) :
    isNameLine (processingLine c) = false := by
  simp [isNameLine, processingLine, String.data_append, List.isPrefixOf]

theorem count_name_segments (env : Env) (qs : List ListRequest) :
    ((qs.flatMap (segment env)).filter isNameLine).length =
      (qs.map fun q => (responseItems (env.list q)).length).sum := by
  induction qs with
  | nil => rfl
  | cons q rest ih =>
    have hitems : ∀ items : List Item,
        ((items.flatMap renderItem).filter isNameLine).length = items.length := by
      intro items
      induction items with
      | nil => rfl
      | cons i r ihr =>
        rw [List.flatMap_cons, List.filter_append, List.length_append, isNameLine_renderItem, ihr,
          List.length_cons]
        omega
    rw [List.flatMap_cons, List.filter_append, List.length_append, ih, segment, List.filter_cons,
      isNameLine_processingLine, List.map_cons, List.sum_cons]
    simp [hitems]

/-! ## Text of standard output -/

theorem string_join_cons (a : String) (l : List String) :
    String.join (a :: l) = a ++ String.join l := by
  have h := string_join_append [a] l
  rw [List.singleton_append] at h
  rw [h]
  congr 1

theorem string_join_flatMap {α : Type} (l : List α) (f : α → List String) :
    String.join (l.flatMap f) = String.join (l.map fun a => String.join (f a)) := by
  induction l with
  | nil => rfl
  | cons a rest ih =>
    rw [List.flatMap_cons, string_join_append, ih, List.map_cons, string_join_cons]

theorem string_join_renderItem (item : Item) :
    String.join (renderItem item) =
      if item.GetNamespace = "" then "Name: " ++ item.GetName ++ "\n\n"
      else "Namespace: " ++ item.GetNamespace ++ "\n" ++ "Name: " ++ item.GetName ++ "\n\n" := by
  by_cases h : item.GetNamespace = ""
  · rw [renderItem, if_pos h, if_pos h]
    apply String.ext
    simp
  · rw [renderItem, if_neg h, if_neg h]
    apply String.ext
    simp [String.data_append]

/-! ## Exit code -/

/-- A run that ends with exit code 0 went through every step without error. -/
theorem clean_exit_iff (env : Env) (flags : Flags) :
    (main env (.parsed flags)).exitCode = 0 ↔
      (SetupOk env flags ∧ env.ServerPreferredResources.2 = none ∧
        ∀ b ∈ env.ServerPreferredResources.1, BlockOk env (mkListOptions flags) b) := by
  by_cases h : SetupOk env flags ∧ env.ServerPreferredResources.2 = none
  · rw [main_of_setup env flags h.1 h.2]
    rcases blocksLoop_cases env (mkListOptions flags) env.ServerPreferredResources.1 {} with
      ⟨hall, hr⟩ | ⟨pre, b, post, e, hl, _, hp, hr⟩ |
      ⟨pre, b, post, gv, rpre, r, rpost, cause, hl, _, hp, hb, _, hm, hc, hr⟩
    · rw [hr]
      exact ⟨fun _ => ⟨h.1, h.2, hall⟩, fun _ => rfl⟩
    · rw [hr]
      constructor
      · intro hc
        exact absurd hc (by simp [Outcome.exitCode])
      · rintro ⟨_, _, hall⟩
        obtain ⟨gv, hgv, _⟩ := hall b (by rw [hl]; simp)
        rw [hp] at hgv
        cases hgv
    · rw [hr]
      constructor
      · intro hc
        exact absurd hc (by simp [Outcome.exitCode])
      · rintro ⟨_, _, hall⟩
        obtain ⟨gv2, hgv, hres⟩ := hall b (by rw [hl]; simp)
        rw [hp] at hgv
        cases hgv
        obtain ⟨items, hi⟩ := hres r (by rw [hb]; simp) hm
        rw [hc] at hi
        cases hi
  · obtain ⟨line, hm⟩ := main_setup_failed env flags h
    rw [hm]
    constructor
    · intro hc
      exact absurd hc (by simp [Outcome.exitCode])
    · rintro ⟨h1, h2, _⟩
      exact absurd ⟨h1, h2⟩ h

/-- A run ends either with exit code 0 and an empty error stream, or with exit code 1 after
exactly one write to the error stream. -/
theorem exit_dichotomy (env : Env) (flags : Flags) :
    ((main env (.parsed flags)).exitCode = 0 ∧ (main env (.parsed flags)).world.stderr = []) ∨
      ((main env (.parsed flags)).exitCode = 1 ∧ ∃ line, (main env (.parsed flags)).world.stderr = [line]) := by
  by_cases h : SetupOk env flags ∧ env.ServerPreferredResources.2 = none
  · rw [main_of_setup env flags h.1 h.2]
    rcases blocksLoop_cases env (mkListOptions flags) env.ServerPreferredResources.1 {} with
      ⟨_, hr⟩ | ⟨pre, b, post, e, _, _, _, hr⟩ |
      ⟨pre, b, post, gv, rpre, r, rpost, cause, _, _, _, _, _, _, _, hr⟩
    · rw [hr]
      exact Or.inl ⟨rfl, rfl⟩
    · rw [hr]
      exact Or.inr ⟨rfl, _, rfl⟩
    · rw [hr]
      exact Or.inr ⟨rfl, _, rfl⟩
  · obtain ⟨line, hm⟩ := main_setup_failed env flags h
    rw [hm]
    exact Or.inr ⟨rfl, line, rfl⟩

/-! ## The claims -/

/-- C1: when client construction and discovery succeed, every block's group-version string
parses and every list request succeeds, the coordinates of the list requests `main` issues, and
the `Processing` lines it prints, are exactly those of the entries whose verbs contain `"list"`,
with group and version from the parsed group-version of the block, in block order and then
entry order; an entry without `"list"` is skipped without any effect. -/
theorem processed_coordinates_exact (env : Env) (flags : Flags) (hs : SetupOk env flags)
    (hd : env.ServerPreferredResources.2 = none)
    (hparse : ∀ b ∈ env.ServerPreferredResources.1,
      ∃ gv, ParseGroupVersion b.GroupVersion = .ok gv)
    (hlist : ∀ c ∈ listableCoordinates env.ServerPreferredResources.1,
      ∃ items, env.list (requestFor (mkListOptions flags) c) = .ok items) :
    (main env (.parsed flags)).world.requests.map (fun q => q.resource) =
        listableCoordinates env.ServerPreferredResources.1 ∧
      (main env (.parsed flags)).world.stdout.filter isProcessingLine =
        (listableCoordinates env.ServerPreferredResources.1).map processingLine ∧
      ∀ (gv : GroupVersion) (r : APIResource) (rest : List APIResource) (w : World),
        "list" ∉ r.Verbs →
          resourcesLoop env (mkListOptions flags) gv (r :: rest) w =
            resourcesLoop env (mkListOptions flags) gv rest w := by
  have hok : ∀ b ∈ env.ServerPreferredResources.1, BlockOk env (mkListOptions flags) b := by
    intro b hb
    obtain ⟨gv, hgv⟩ := hparse b hb
    exact ⟨gv, hgv, fun r hr hv => hlist _ (listableCoordinates_mem _ b gv r hb hgv hr hv)⟩
  rw [main_of_setup env flags hs hd, blocksLoop_ok env _ _ _ hok]
  refine ⟨?_, ?_, ?_⟩
  · simp [Outcome.world, World.extend, requestFor, Function.comp_def]
  · simp only [Outcome.world, World.extend, List.nil_append]
    rw [filter_processing_segments]
    simp [requestFor, Function.comp_def]
  · intro gv r rest w h
    exact resourcesLoop_skip env _ gv r rest w h

/-- C1 on the sample server: only `pods` and `deployments` are processed. -/
theorem processed_coordinates_exact_witness :
    (main sampleEnv (.parsed {})).world.requests.map (fun q => q.resource) =
        [⟨"", "v1", "pods"⟩, ⟨"apps", "v1", "deployments"⟩] ∧
      (main sampleEnv (.parsed {})).world.stdout.filter isProcessingLine =
        ["Processing /v1, Resource=pods\n", "Processing apps/v1, Resource=deployments\n"] := by
  have h := processed_coordinates_exact sampleEnv {} ⟨rfl, rfl, rfl, rfl⟩ rfl
    (by
      intro b hb
      simp only [sampleEnv, envOf, sampleLists, List.mem_cons, List.mem_singleton,
        List.not_mem_nil, or_false] at hb
      rcases hb with rfl | rfl <;> exact ⟨_, rfl⟩)
    (by
      intro c _
      by_cases hq : c.Resource = "pods"
      · exact ⟨[⟨"default", "a"⟩], by simp [sampleEnv, envOf, requestFor, hq]⟩
      · exact ⟨[⟨"", "b"⟩, ⟨"default", "a"⟩], by simp [sampleEnv, envOf, requestFor, hq]⟩)
  exact ⟨h.1.trans (by decide), h.2.1.trans (by decide)⟩

/-- C2 (as stated) fails: the block string `v1` has no separator, yet the run succeeds and the
coordinate `/v1, Resource=pods` is produced from that block. -/
theorem no_separator_still_parses :
    '/' ∉ "v1".data ∧ (main coreEnv (.parsed {})).exitCode = 0 ∧ (main coreEnv (.parsed {})).world.stderr = [] ∧
      (main coreEnv (.parsed {})).world.requests.map (fun q => q.resource) = [⟨"", "v1", "pods"⟩] := by
  decide

/-- C2 (amended): `ParseGroupVersion` rejects exactly the strings with two or more `'/'`.  When
the blocks before `b` are processed without error and the group-version string of `b` has two
or more `'/'`, the run exits with code 1, the error stream holds the single line
`error parsing GroupVersion <gv>: unexpected GroupVersion string: <gv>`, and the list requests
issued are those of the preceding blocks only. -/
theorem malformed_group_version_fatal (env : Env) (flags : Flags)
    (pre post : List APIResourceList) (b : APIResourceList) (hs : SetupOk env flags)
    (hd : env.ServerPreferredResources = (pre ++ b :: post, none))
    (hpre : ∀ x ∈ pre, BlockOk env (mkListOptions flags) x)
    (hb : 2 ≤ b.GroupVersion.data.count '/') :
    (main env (.parsed flags)).exitCode = 1 ∧
      (main env (.parsed flags)).world.stderr =
        ["error parsing GroupVersion " ++ b.GroupVersion ++ ": " ++
          ("unexpected GroupVersion string: " ++ b.GroupVersion) ++ "\n"] ∧
      (main env (.parsed flags)).world.requests.map (fun q => q.resource) = listableCoordinates pre ∧
      ∀ s : String, (∃ e, ParseGroupVersion s = .error e) ↔ 2 ≤ s.data.count '/' := by
  obtain ⟨e, he⟩ := (parse_error_iff b.GroupVersion).2 hb
  have hd2 : env.ServerPreferredResources.2 = none := by rw [hd]
  have hd1 : env.ServerPreferredResources.1 = pre ++ b :: post := by rw [hd]
  have hrun := blocksLoop_parse_fail_at env (mkListOptions flags) pre post b {} e hpre he
  rw [main_of_setup env flags hs hd2, hd1, hrun, parse_error_text _ _ he]
  refine ⟨rfl, ?_, ?_, parse_error_iff⟩
  · simp [Outcome.world, World.eprintf, World.extend]
  · simp [Outcome.world, World.eprintf, World.extend, requestFor, Function.comp_def]

/-- C2 (amended) on a server whose second block is `a/b/c`. -/
theorem malformed_group_version_fatal_witness :
    2 ≤ "a/b/c".data.count '/' ∧ (main malformedSecondEnv (.parsed {})).exitCode = 1 ∧
      (main malformedSecondEnv (.parsed {})).world.stderr =
        ["error parsing GroupVersion a/b/c: unexpected GroupVersion string: a/b/c\n"] ∧
      (main malformedSecondEnv (.parsed {})).world.requests.map (fun q => q.resource) =
        [⟨"", "v1", "pods"⟩] := by
  have h := malformed_group_version_fatal malformedSecondEnv {}
    [⟨"v1", [⟨"pods", ["list", "get"]⟩]⟩] [⟨"apps/v1", [⟨"deployments", ["list"]⟩]⟩]
    ⟨"a/b/c", [⟨"things", ["list"]⟩]⟩ ⟨rfl, rfl, rfl, rfl⟩ rfl
    (by
      intro x hx
      rw [List.mem_singleton] at hx
      subst hx
      exact ⟨⟨"", "v1"⟩, rfl, fun r _ _ => ⟨_, rfl⟩⟩)
    (by decide)
  exact ⟨by decide, h.1, h.2.1.trans (by decide), h.2.2.1.trans (by decide)⟩

/-- C3 (as stated) fails: discovery succeeds with no block at all, so every block parses and
every list request succeeds, yet the run exits with code 1 because the dynamic client cannot
be created. -/
theorem exit_zero_needs_clients :
    noDynamicClientEnv.ServerPreferredResources = ([], none) ∧
      (main noDynamicClientEnv (.parsed {})).exitCode = 1 ∧
      (main noDynamicClientEnv (.parsed {})).world.stderr = ["error creating dynamic client: boom\n"] ∧
      ¬ (((main noDynamicClientEnv (.parsed {})).exitCode = 0 ∧ (main noDynamicClientEnv (.parsed {})).world.stderr = []) ↔
        (noDynamicClientEnv.ServerPreferredResources.2 = none ∧
          ∀ b ∈ noDynamicClientEnv.ServerPreferredResources.1,
            BlockOk noDynamicClientEnv (mkListOptions {}) b)) := by
  refine ⟨rfl, by decide, by decide, ?_⟩
  intro h
  have h0 := (h.2 ⟨rfl, fun b hb => absurd hb (List.not_mem_nil b)⟩).1
  revert h0
  decide

/-- C3 (amended): the run ends with exit code 0 and an empty error stream exactly when
`flag.Parse()` returns, the four client-construction steps succeed, discovery succeeds, every
block's group-version string parses and the list request of every list-supporting entry
succeeds.  When `flag.Parse()` returns, every other run ends with exit code 1 after exactly one
write to the error stream.  When the command line asks for help, `flag.Parse()` writes the usage
to the error stream and exits with code 0; when it is rejected, `flag.Parse()` writes the error
and the usage to the error stream and exits with code 2; in both cases nothing is printed to
standard output and nothing is requested.  `checkError` with a non-nil error writes
`<msg>: <err>` and a newline to the error stream and exits with code 1; with a nil error it
changes nothing. -/
theorem exit_code_zero_iff (env : Env) (cmd : CommandLine) :
    (((main env cmd).exitCode = 0 ∧ (main env cmd).world.stderr = []) ↔
        ∃ flags, cmd = .parsed flags ∧ SetupOk env flags ∧
          env.ServerPreferredResources.2 = none ∧
          ∀ b ∈ env.ServerPreferredResources.1, BlockOk env (mkListOptions flags) b) ∧
      (match cmd with
        | .parsed _ =>
          ((main env cmd).exitCode = 0 ∧ (main env cmd).world.stderr = []) ∨
            ((main env cmd).exitCode = 1 ∧ ∃ line, (main env cmd).world.stderr = [line])
        | .help prog defaults =>
          (main env cmd).exitCode = 0 ∧
            (main env cmd).world.stderr = ("Usage of " ++ prog ++ ":\n") :: defaults ∧
            (main env cmd).world.stdout = [] ∧ (main env cmd).world.requests = []
        | .rejected problem prog defaults =>
          (main env cmd).exitCode = 2 ∧
            (main env cmd).world.stderr =
              (problem ++ "\n") :: ("Usage of " ++ prog ++ ":\n") :: defaults ∧
            (main env cmd).world.stdout = [] ∧ (main env cmd).world.requests = []) ∧
      (∀ (e msg : String) (w : World),
        checkError (some e) msg w =
          .exited 1 { w with stderr := w.stderr ++ [msg ++ ": " ++ e ++ "\n"] }) ∧
      ∀ (msg : String) (w : World), checkError none msg w = .running w := by
  refine ⟨?_, ?_, fun _ _ _ => rfl, fun _ _ => rfl⟩
  · cases cmd with
    | parsed flags =>
      constructor
      · intro h
        exact ⟨flags, rfl, (clean_exit_iff env flags).1 h.1⟩
      · rintro ⟨flags2, hf, h⟩
        cases hf
        have h0 := (clean_exit_iff env flags).2 h
        rcases exit_dichotomy env flags with hd | hd
        · exact hd
        · rw [h0] at hd
          exact absurd hd.1 (by decide)
    | help prog defaults =>
      constructor
      · intro h
        exact absurd h.2 (by simp [main, Outcome.world, World.eprintAll, usageWrites])
      · rintro ⟨flags, hf, _⟩
        cases hf
    | rejected problem prog defaults =>
      constructor
      · intro h
        exact absurd h.1 (by simp [main, Outcome.exitCode])
      · rintro ⟨flags, hf, _⟩
        cases hf
  · cases cmd with
    | parsed flags => exact exit_dichotomy env flags
    | help prog defaults => exact ⟨rfl, rfl, rfl, rfl⟩
    | rejected problem prog defaults => exact ⟨rfl, rfl, rfl, rfl⟩

/-- C4: in every run, the text of standard output is the concatenation, over the list requests
issued, of `Processing <group>/<version>, Resource=<resource>` and a newline followed, for each
object of the response, by `Namespace: <ns>`, newline, `Name: <n>`, newline, newline when the
namespace is not empty and by `Name: <n>`, newline, newline alone when it is empty.  Scenario A
prints `Processing /v1, Resource=pods`, and a cluster-scoped object gets no `Namespace:` line. -/
theorem output_rendered_verbatim (env : Env) (cmd : CommandLine) :
    (main env cmd).world.stdoutText =
        String.join ((main env cmd).world.requests.map fun q =>
          "Processing " ++ q.resource.Group ++ "/" ++ q.resource.Version ++ ", Resource=" ++
            q.resource.Resource ++ "\n" ++
          String.join ((responseItems (env.list q)).map fun item =>
            if item.GetNamespace = "" then "Name: " ++ item.GetName ++ "\n\n"
            else "Namespace: " ++ item.GetNamespace ++ "\n" ++ "Name: " ++ item.GetName ++ "\n\n")) ∧
      (main coreEnv (.parsed {})).world.stdoutText =
        "Processing /v1, Resource=pods\nNamespace: default\nName: a\n\n" ∧
      (main clusterScopedEnv (.parsed {})).world.stdoutText =
        "Processing /v1, Resource=nodes\nName: n1\n\n" := by
  refine ⟨?_, by decide, by decide⟩
  obtain ⟨cs, opts, _, hreq, hout⟩ := main_trace_any env cmd
  rw [World.stdoutText, hout, hreq, string_join_flatMap]
  congr 1
  apply List.map_congr_left
  intro q _
  rw [segment, string_join_cons, string_join_flatMap]
  congr 1
  congr 1
  apply List.map_congr_left
  intro item _
  exact string_join_renderItem item

/-- C5: on a run that ends with exit code 0, the writes to standard output are, for each
list-supporting coordinate in discovery order, its `Processing` line followed by the records of
its own response in response order; every one of these requests succeeded, one request was
issued per coordinate, and the number of `Name:` writes is the sum of the response lengths. -/
theorem output_in_discovery_order (env : Env) (flags : Flags)
    (h : (main env (.parsed flags)).exitCode = 0) :
    (main env (.parsed flags)).world.stdout =
        (listableCoordinates env.ServerPreferredResources.1).flatMap (fun c =>
          processingLine c ::
            (responseItems (env.list (requestFor (mkListOptions flags) c))).flatMap renderItem) ∧
      (main env (.parsed flags)).world.requests =
        (listableCoordinates env.ServerPreferredResources.1).map (requestFor (mkListOptions flags)) ∧
      (∀ c ∈ listableCoordinates env.ServerPreferredResources.1,
        ∃ items, env.list (requestFor (mkListOptions flags) c) = .ok items) ∧
      ((main env (.parsed flags)).world.stdout.filter isNameLine).length =
        ((listableCoordinates env.ServerPreferredResources.1).map fun c =>
          (responseItems (env.list (requestFor (mkListOptions flags) c))).length).sum := by
  have hall := ((clean_exit_iff env flags).1 h)
  obtain ⟨hs, hd, hok⟩ := hall
  have hrun := blocksLoop_ok env (mkListOptions flags) env.ServerPreferredResources.1 {} hok
  rw [main_of_setup env flags hs hd, hrun]
  refine ⟨?_, ?_, ?_, ?_⟩
  · simp only [Outcome.world, World.extend, List.nil_append]
    rw [List.flatMap_map]
    rfl
  · simp only [Outcome.world, World.extend, List.nil_append]
  · intro c hc
    obtain ⟨b, hb, gv, hp, r, hr, hv, rfl⟩ := mem_listableCoordinates _ c hc
    obtain ⟨gv2, hp2, hres⟩ := hok b hb
    rw [hp] at hp2
    cases hp2
    exact hres r hr hv
  · simp only [Outcome.world, World.extend, List.nil_append]
    rw [count_name_segments, List.map_map]
    rfl

/-- C5 on the sample server: both coordinates return the object `default/a` and both emit it. -/
theorem output_in_discovery_order_witness :
    (main sampleEnv (.parsed {})).exitCode = 0 ∧
      (main sampleEnv (.parsed {})).world.stdout =
        ["Processing /v1, Resource=pods\n", "Namespace: default\n", "Name: a\n\n",
         "Processing apps/v1, Resource=deployments\n", "Name: b\n\n", "Namespace: default\n",
         "Name: a\n\n"] ∧
      ((main sampleEnv (.parsed {})).world.stdout.filter isNameLine).length = 3 := by
  have h := output_in_discovery_order sampleEnv {} (by decide)
  exact ⟨by decide, h.1.trans (by decide), h.2.2.2.trans (by decide)⟩

/-- C6: when client construction and discovery succeed, the blocks before `b` are processed
without error, `b` parses, the entries of `b` before `r` are processed without error, and the
list request of the list-supporting entry `r` fails with `cause`, the run exits with code 1,
the error stream holds the single line `error listing <group>/<version>, Resource=<resource>:
<cause>`, the failing request is the last request issued and its `Processing` line is the
last write to standard output. -/
theorem list_failure_fatal (env : Env) (flags : Flags) (pre post : List APIResourceList)
    (b : APIResourceList) (gv : GroupVersion) (rpre rpost : List APIResource) (r : APIResource)
    (cause : String) (hs : SetupOk env flags)
    (hd : env.ServerPreferredResources = (pre ++ b :: post, none))
    (hpre : ∀ x ∈ pre, BlockOk env (mkListOptions flags) x)
    (hp : ParseGroupVersion b.GroupVersion = .ok gv) (hb : b.APIResources = rpre ++ r :: rpost)
    (hrpre : ResourcesOk env (mkListOptions flags) gv rpre) (hm : "list" ∈ r.Verbs)
    (hl : env.list (requestFor (mkListOptions flags) ⟨gv.Group, gv.Version, r.Name⟩) =
      .error cause) :
    (main env (.parsed flags)).exitCode = 1 ∧
      (main env (.parsed flags)).world.stderr =
        ["error listing " ++ gv.Group ++ "/" ++ gv.Version ++ ", Resource=" ++ r.Name ++ ": "
          ++ cause ++ "\n"] ∧
      (main env (.parsed flags)).world.requests.map (fun q => q.resource) =
        listableCoordinates pre ++ coordinatesOf gv rpre ++ [⟨gv.Group, gv.Version, r.Name⟩] ∧
      (main env (.parsed flags)).world.stdout =
        ((listableCoordinates pre ++ coordinatesOf gv rpre).map
            (requestFor (mkListOptions flags))).flatMap (segment env) ++
          [processingLine ⟨gv.Group, gv.Version, r.Name⟩] := by
  have hd2 : env.ServerPreferredResources.2 = none := by rw [hd]
  have hd1 : env.ServerPreferredResources.1 = pre ++ b :: post := by rw [hd]
  have hrun := blocksLoop_list_fail_at env (mkListOptions flags) pre post b gv rpre rpost r {}
    cause hpre hp hb hrpre hm hl
  rw [main_of_setup env flags hs hd2, hd1, hrun]
  refine ⟨rfl, ?_, ?_, ?_⟩
  · simp [Outcome.world, World.eprintf, World.extend]
  · simp [Outcome.world, World.eprintf, World.extend, requestFor, Function.comp_def]
  · simp [Outcome.world, World.eprintf, World.extend, List.flatMap_append, segment, hl,
      responseItems]
    rfl

/-- C6 on a server that refuses to list `secrets`: nothing is done for `services` or
`deployments`. -/
theorem list_failure_fatal_witness :
    (main forbiddenSecretsEnv (.parsed {})).exitCode = 1 ∧
      (main forbiddenSecretsEnv (.parsed {})).world.stderr =
        ["error listing /v1, Resource=secrets: forbidden\n"] ∧
      (main forbiddenSecretsEnv (.parsed {})).world.requests.map (fun q => q.resource) =
        [⟨"", "v1", "pods"⟩, ⟨"", "v1", "secrets"⟩] ∧
      (main forbiddenSecretsEnv (.parsed {})).world.stdout =
        ["Processing /v1, Resource=pods\n", "Namespace: default\n", "Name: a\n\n",
         "Processing /v1, Resource=secrets\n"] := by
  have h := list_failure_fatal forbiddenSecretsEnv {} []
    [⟨"apps/v1", [⟨"deployments", ["list"]⟩]⟩]
    ⟨"v1", [⟨"pods", ["list"]⟩, ⟨"nodes", ["get"]⟩, ⟨"secrets", ["list"]⟩, ⟨"services", ["list"]⟩]⟩
    ⟨"", "v1"⟩ [⟨"pods", ["list"]⟩, ⟨"nodes", ["get"]⟩] [⟨"services", ["list"]⟩]
    ⟨"secrets", ["list"]⟩ "forbidden" ⟨rfl, rfl, rfl, rfl⟩ rfl
    (fun x hx => absurd hx (List.not_mem_nil x)) rfl rfl
    (by
      intro x hx hv
      simp only [List.mem_cons, List.mem_singleton, List.not_mem_nil, or_false] at hx
      rcases hx with rfl | rfl
      · exact ⟨_, rfl⟩
      · exact absurd hv (by decide))
    (by decide) rfl
  exact ⟨h.1, h.2.1.trans (by decide), h.2.2.1.trans (by decide), h.2.2.2.trans (by decide)⟩

/-- C7: in every run and for every value of the selector flag, each list request issued has
the selector flag as its label selector, every other option at its zero value and the empty
namespace (all namespaces); the `Processing` lines printed are, in order, those of the requests
issued, and the requested coordinates are a prefix of the list-supporting coordinates of the
discovery result, so each processed coordinate is requested exactly once. -/
theorem list_request_options (env : Env) (flags : Flags) :
    (∀ q ∈ (main env (.parsed flags)).world.requests,
        q.Namespace = "" ∧
          q.opts = { LabelSelector := flags.selector, FieldSelector := "", Watch := false,
                     AllowWatchBookmarks := false, ResourceVersion := "",
                     ResourceVersionMatch := "", TimeoutSeconds := none, Limit := 0,
                     Continue := "" }) ∧
      (main env (.parsed flags)).world.stdout.filter isProcessingLine =
        (main env (.parsed flags)).world.requests.map (fun q => processingLine q.resource) ∧
      ((main env (.parsed flags)).world.requests.map fun q => q.resource) <+:
        listableCoordinates env.ServerPreferredResources.1 := by
  obtain ⟨cs, hpre, hreq, hout⟩ := main_trace env flags
  have hres : (cs.map (requestFor (mkListOptions flags))).map (fun q => q.resource) = cs := by
    simp [requestFor, Function.comp_def]
  refine ⟨?_, ?_, ?_⟩
  · intro q hq
    rw [hreq, List.mem_map] at hq
    obtain ⟨c, _, rfl⟩ := hq
    exact ⟨rfl, rfl⟩
  · rw [hout, hreq, filter_processing_segments]
  · rw [hreq, hres]
    exact hpre

/-- C8: when the three steps before it succeed and the discovery call returns an error, whatever
resource lists come with it, the run exits with code 1, the error stream holds the single line
`error getting server preferred resources: <cause>`, nothing is written to standard output and
no list request is issued. -/
theorem discovery_error_fatal (env : Env) (flags : Flags) (cause : String)
    (h1 : env.GetStartingConfig flags.kubeconfig = none) (h2 : env.ClientConfig = none)
    (h3 : env.NewDiscoveryClientForConfig = none)
    (hd : env.ServerPreferredResources.2 = some cause) :
    (main env (.parsed flags)).exitCode = 1 ∧
      (main env (.parsed flags)).world.stderr =
        ["error getting server preferred resources: " ++ cause ++ "\n"] ∧
      (main env (.parsed flags)).world.stdout = [] ∧ (main env (.parsed flags)).world.requests = [] := by
  simp [main, h1, h2, h3, hd, checkError, Outcome.andThen, World.eprintf, Outcome.exitCode,
    Outcome.world]

/-- C8 on a server that returns a partial discovery result together with an error. -/
theorem discovery_error_fatal_witness :
    partialDiscoveryEnv.ServerPreferredResources.1 ≠ [] ∧
      (main partialDiscoveryEnv (.parsed {})).exitCode = 1 ∧
      (main partialDiscoveryEnv (.parsed {})).world.stderr =
        ["error getting server preferred resources: unable to retrieve the complete list\n"] ∧
      (main partialDiscoveryEnv (.parsed {})).world.stdout = [] ∧
      (main partialDiscoveryEnv (.parsed {})).world.requests = [] := by
  have h := discovery_error_fatal partialDiscoveryEnv {} "unable to retrieve the complete list"
    rfl rfl rfl rfl
  exact ⟨by decide, h.1, h.2.1.trans (by decide), h.2.2⟩

/-- C9 (as stated) fails: the second block `a/b/c` does not parse, yet the coordinate of the
block before it has been printed and listed before the run stops. -/
theorem earlier_blocks_are_processed :
    (∃ e, ParseGroupVersion "a/b/c" = .error e) ∧ (main malformedSecondEnv (.parsed {})).exitCode = 1 ∧
      (main malformedSecondEnv (.parsed {})).world.stdout =
        ["Processing /v1, Resource=pods\n", "Namespace: default\n", "Name: a\n\n"] ∧
      (main malformedSecondEnv (.parsed {})).world.requests =
        [⟨⟨"", "v1", "pods"⟩, "", {}⟩] := by
  exact ⟨⟨_, rfl⟩, by decide, by decide, by decide⟩

/-- C9 (amended): parsing is interleaved with listing.  When the blocks before `b` are processed
without error and the group-version string of `b` fails to parse, the list requests issued and
the writes to standard output are exactly those of the blocks before `b`, in order: nothing
is printed or requested for `b` or for any later block. -/
theorem parse_failure_keeps_earlier_output (env : Env) (flags : Flags)
    (pre post : List APIResourceList) (b : APIResourceList) (e : String)
    (hs : SetupOk env flags) (hd : env.ServerPreferredResources = (pre ++ b :: post, none))
    (hpre : ∀ x ∈ pre, BlockOk env (mkListOptions flags) x)
    (hb : ParseGroupVersion b.GroupVersion = .error e) :
    (main env (.parsed flags)).world.requests =
        (listableCoordinates pre).map (requestFor (mkListOptions flags)) ∧
      (main env (.parsed flags)).world.stdout =
        (listableCoordinates pre).flatMap (fun c =>
          processingLine c ::
            (responseItems (env.list (requestFor (mkListOptions flags) c))).flatMap renderItem) ∧
      (main env (.parsed flags)).world.stdout.filter isProcessingLine =
        (listableCoordinates pre).map processingLine := by
  have hd2 : env.ServerPreferredResources.2 = none := by rw [hd]
  have hd1 : env.ServerPreferredResources.1 = pre ++ b :: post := by rw [hd]
  have hrun := blocksLoop_parse_fail_at env (mkListOptions flags) pre post b {} e hpre hb
  rw [main_of_setup env flags hs hd2, hd1, hrun]
  refine ⟨?_, ?_, ?_⟩
  · simp [Outcome.world, World.eprintf, World.extend]
  · simp only [Outcome.world, World.eprintf, World.extend, List.nil_append]
    rw [List.flatMap_map]
    rfl
  · simp only [Outcome.world, World.eprintf, World.extend, List.nil_append]
    rw [filter_processing_segments]
    simp [requestFor, Function.comp_def]

/-- C9 (amended) on the server whose second block is `a/b/c`. -/
theorem parse_failure_keeps_earlier_output_witness :
    (main malformedSecondEnv (.parsed {})).world.requests.map (fun q => q.resource) =
        [⟨"", "v1", "pods"⟩] ∧
      (main malformedSecondEnv (.parsed {})).world.stdout.filter isProcessingLine =
        ["Processing /v1, Resource=pods\n"] := by
  have h := parse_failure_keeps_earlier_output malformedSecondEnv {}
    [⟨"v1", [⟨"pods", ["list", "get"]⟩]⟩] [⟨"apps/v1", [⟨"deployments", ["list"]⟩]⟩]
    ⟨"a/b/c", [⟨"things", ["list"]⟩]⟩ "unexpected GroupVersion string: a/b/c"
    ⟨rfl, rfl, rfl, rfl⟩ rfl
    (by
      intro x hx
      rw [List.mem_singleton] at hx
      subst hx
      exact ⟨⟨"", "v1"⟩, rfl, fun r _ _ => ⟨_, rfl⟩⟩)
    rfl
  exact ⟨(congrArg (List.map fun q => q.resource) h.1).trans (by decide),
    h.2.2.trans (by decide)⟩

/-- C10 (as stated) fails: for a block with an empty group-version string and an entry with an
empty name that supports `list`, `main` processes the coordinate whose group, version and
resource are all empty. -/
theorem empty_coordinate_is_processed :
    (main emptyNamesEnv (.parsed {})).exitCode = 0 ∧
      (main emptyNamesEnv (.parsed {})).world.requests.map (fun q => q.resource) = [⟨"", "", ""⟩] ∧
      (main emptyNamesEnv (.parsed {})).world.stdout = ["Processing /, Resource=\n"] := by
  decide

/-- C10 (amended): if every block's group-version string is non-empty and does not end in
`'/'`, and every advertised entry has a non-empty name, then every coordinate for which `main`
issues a list request has a non-empty version and a non-empty resource name (the group may be
empty), and the `Processing` lines printed are those of these coordinates. -/
theorem processed_coordinate_nonempty (env : Env) (cmd : CommandLine)
    (hgv : ∀ b ∈ env.ServerPreferredResources.1,
      b.GroupVersion ≠ "" ∧ b.GroupVersion.data.getLast? ≠ some '/')
    (hname : ∀ b ∈ env.ServerPreferredResources.1, ∀ r ∈ b.APIResources, r.Name ≠ "") :
    (∀ q ∈ (main env cmd).world.requests, q.resource.Version ≠ "" ∧ q.resource.Resource ≠ "") ∧
      (main env cmd).world.stdout.filter isProcessingLine =
        (main env cmd).world.requests.map (fun q => processingLine q.resource) := by
  obtain ⟨cs, opts, hpre, hreq, hout⟩ := main_trace_any env cmd
  refine ⟨?_, ?_⟩
  · intro q hq
    rw [hreq, List.mem_map] at hq
    obtain ⟨c, hc, rfl⟩ := hq
    obtain ⟨b, hb, gv, hp, r, hr, _, rfl⟩ := mem_listableCoordinates _ c (hpre.subset hc)
    exact ⟨parse_version_ne_empty _ gv hp (hgv b hb).1 (hgv b hb).2, hname b hb r hr⟩
  · rw [hout, hreq, filter_processing_segments]

/-- C10 (amended) on the sample server, whose group may be empty (`/v1`). -/
theorem processed_coordinate_nonempty_witness :
    (∀ q ∈ (main sampleEnv (.parsed {})).world.requests,
        q.resource.Version ≠ "" ∧ q.resource.Resource ≠ "") ∧
      (main sampleEnv (.parsed {})).world.requests.map (fun q => q.resource) =
        [⟨"", "v1", "pods"⟩, ⟨"apps", "v1", "deployments"⟩] := by
  have h := processed_coordinate_nonempty sampleEnv (.parsed {})
    (by
      intro b hb
      simp only [sampleEnv, envOf, sampleLists, List.mem_cons, List.mem_singleton,
        List.not_mem_nil, or_false] at hb
      rcases hb with rfl | rfl <;> decide)
    (by
      intro b hb r hr
      simp only [sampleEnv, envOf, sampleLists, List.mem_cons, List.mem_singleton,
        List.not_mem_nil, or_false] at hb
      rcases hb with rfl | rfl
      · simp only [List.mem_cons, List.mem_singleton, List.not_mem_nil, or_false] at hr
        rcases hr with rfl | rfl | rfl <;> decide
      · simp only [List.mem_cons, List.mem_singleton, List.not_mem_nil, or_false] at hr
        subst hr
        decide)
  exact ⟨h.1, by decide⟩

end KubeDiscovery
